import Mathlib

/-
Verification of the build-configuration section parser and merger
(`BuildGradleMigrator` in `build_gradle_migrator.py`).

Lines of text are modelled as `List Char` (Python `str`), files as
`List Line` (the result of `readlines()`, each line normally keeping its
trailing newline).  All functions below are shallow embeddings of the
corresponding Python methods; doc comments name the embedded method.
-/

namespace GradleMig

/-- A line of text, as Python `str`. -/
abbrev Line := List Char

/-- Whitespace characters recognized by Python `str.strip()` and the regex
class `\s`: space, tab, newline, carriage return, vertical tab, form feed. -/
def isPySpace (c : Char) : Bool :=
  c = ' ' || c = '\t' || c = '\n' || c = '\r' || c = '\x0b' || c = '\x0c'

/-- Python `str.strip()`: remove leading and trailing whitespace. -/
def pyStrip (l : Line) : Line :=
  ((l.dropWhile isPySpace).reverse.dropWhile isPySpace).reverse

/-- Python `str.startswith(p)`. -/
def startsWith (p l : Line) : Bool := p.isPrefixOf l

/-- Python `str.endswith(p)`. -/
def endsWith (p l : Line) : Bool := p.isSuffixOf l

/-- First character class of the identifier in the section-header regex
`^([a-zA-Z_][a-zA-Z0-9_]*)\s*\{`. -/
def isIdentStart (c : Char) : Bool := c.isAlpha || c = '_'

/-- Continuation character class of the identifier in the section-header regex. -/
def isIdentChar (c : Char) : Bool := c.isAlphanum || c = '_'

/-- Match of the regex `^([a-zA-Z_][a-zA-Z0-9_]*)\s*\{` (from
`identify_sections`) against an already stripped line, returning the captured
section name. -/
def sectionMatch (l : Line) : Option Line :=
  match l with
  | [] => none
  | c :: cs =>
    if isIdentStart c then
      match (cs.dropWhile isIdentChar).dropWhile isPySpace with
      | '{' :: _ => some (c :: cs.takeWhile isIdentChar)
      | _ => none
    else none

/-- Net brace count of one line: `line.count('{') - line.count('}')`, the
update applied to `brace_count` in the scanner loop. -/
def braceDelta (l : Line) : Int := (l.count '{' : Int) - (l.count '}' : Int)

/-- Net brace count of a block of lines (opens minus closes, summed). -/
def netBraces (c : List Line) : Int := (c.map braceDelta).sum

/-- The section-type enum of `build_gradle_migrator.py`. -/
inductive SectionType where
  | plugins
  | dependencies
  | repositories
  | configurations
  | tasks
  | android
  | java
  | kotlin
  | custom
deriving DecidableEq, Repr

/-- String constant used below. -/
def strPlugins : Line := "plugins".data

/-- String constant used below. -/
def strPlugin : Line := "plugin".data

/-- `BuildGradleMigrator._determine_section_type`: classify a section name
after lower-casing it. -/
def determineSectionType (name : Line) : SectionType :=
  let s := name.map Char.toLower
  if s = strPlugins || s = strPlugin then .plugins
  else if s = "dependencies".data || s = "dependency".data then .dependencies
  else if s = "repositories".data || s = "repository".data then .repositories
  else if s = "configurations".data || s = "configuration".data then .configurations
  else if s = "tasks".data || s = "task".data then .tasks
  else if s = "android".data then .android
  else if s = "java".data then .java
  else if s = "kotlin".data then .kotlin
  else .custom

/-- The `GradleSection` dataclass: a parsed top-level block. -/
structure GradleSection where
  name : Line
  content : List Line
  startLine : Nat
  endLine : Nat
  sectionType : SectionType
  indentation : Line := []
deriving DecidableEq, Repr

/-- A Python `dict[str, GradleSection]`: an insertion-ordered association
list with unique keys. -/
abbrev SectionDict := List (Line × GradleSection)

/-- Python dict assignment `d[k] = v`: if the key exists its value is replaced
in place (keeping the key's original position), otherwise the pair is
appended. -/
def dictInsert (d : SectionDict) (k : Line) (v : GradleSection) : SectionDict :=
  if d.any (fun p => p.1 == k) then
    d.map (fun p => if p.1 == k then (k, v) else p)
  else d ++ [(k, v)]

/-- Keys of a section dict, in insertion (first-seen) order. -/
def dictKeys (d : SectionDict) : List Line := d.map Prod.fst

/-- Values of a section dict, in insertion (first-seen) order. -/
def dictValues (d : SectionDict) : List GradleSection := d.map Prod.snd

/-- Python `d[k]` / key lookup. -/
def dictGet (d : SectionDict) (k : Line) : Option GradleSection :=
  (d.find? (fun p => p.1 == k)).map Prod.snd

/-- The inner capture loop of `identify_sections`: starting from open-brace
counter `bc` (checked *before* each consumption, as in
`while i < len(lines) and brace_count > 0`), the number of further lines the
loop consumes. -/
def captureLen (ls : List Line) (bc : Int) : Nat :=
  match ls with
  | [] => 0
  | l :: ls' => if bc ≤ 0 then 0 else captureLen ls' (bc + braceDelta l) + 1

/-- String constant used below. -/
def strLineComment : Line := "//".data

/-- String constant used below. -/
def strBlockComment : Line := "/*".data

/-- The main loop of `BuildGradleMigrator.identify_sections`: `rest` is the
unscanned suffix of the file, `i` the absolute index of its first line, `d`
the sections found so far.  On a section header the opening line is recorded
with counter 1 (extra braces on the opening line are not counted), the
capture loop consumes following lines, and scanning resumes after the
captured block. -/
def identifyGo (fuel : Nat) (rest : List Line) (i : Nat) (d : SectionDict) :
    SectionDict :=
  match fuel, rest with
  | _, [] => d
  | 0, _ :: _ => d
  | fuel + 1, l :: ls =>
    let s := pyStrip l
    if s.isEmpty || startsWith strLineComment s || startsWith strBlockComment s then
      identifyGo fuel ls (i + 1) d
    else
      match sectionMatch s with
      | some name =>
        let n := captureLen ls 1
        identifyGo fuel (ls.drop n) (i + 1 + n)
          (dictInsert d name
            ⟨name, l :: ls.take n, i, i + n, determineSectionType name, []⟩)
      | none => identifyGo fuel ls (i + 1) d

/-- `BuildGradleMigrator.identify_sections`.  The fuel argument of
`identifyGo` bounds the remaining loop iterations and is instantiated with
the number of lines to scan, which is always sufficient because the scan
index strictly increases (`identifyGo_fuel_irrelevant`). -/
def identifySections (lines : List Line) : SectionDict :=
  identifyGo lines.length lines 0 []

/-- The sequence of section names captured by the scanner in scan order,
before the mapping collapses duplicate names (the "raw name list" the spec's
duplicate check is supposed to inspect).  Same loop structure as
`identifyGo`, collecting names into a list instead of a dict. -/
def rawNamesGo (fuel : Nat) (rest : List Line) : List Line :=
  match fuel, rest with
  | _, [] => []
  | 0, _ :: _ => []
  | fuel + 1, l :: ls =>
    let s := pyStrip l
    if s.isEmpty || startsWith strLineComment s || startsWith strBlockComment s then
      rawNamesGo fuel ls
    else
      match sectionMatch s with
      | some name => name :: rawNamesGo fuel (ls.drop (captureLen ls 1))
      | none => rawNamesGo fuel ls

/-- Raw (pre-collapse) section name sequence of a file. -/
def rawSectionNames (lines : List Line) : List Line :=
  rawNamesGo lines.length lines

/-- The `MigrationChange` dataclass. -/
structure MigrationChange where
  sectionName : Line
  changeType : Line
  description : Line
  details : List Line
deriving DecidableEq, Repr

/-- The marker comment of `_migrate_new_section`. -/
def addMarkerComment : Line :=
  "// Section Added in migration from source project\n".data

/-- The marker comment of `_migrate_existing_section`. -/
def updateMarkerComment : Line :=
  "// Section updated in migration from source to target\n".data

/-- The per-line marker comment of `_migrate_existing_section`. -/
def perLineMarkerComment : Line :=
  "    // Added as part of migration from source to target\n".data

/-- The leading detail string of an Add change:
`f"Added complete section with \x7bn\x7d lines"`. -/
def addCountDetail (n : Nat) : Line :=
  "Added complete section with ".data ++ (Nat.repr n).data ++ " lines".data

/-- The description of an Add change. -/
def addDescription (name : Line) : Line :=
  "Added new section ".data ++ name ++ " from source project".data

/-- The description of an Update change. -/
def updateDescription (name : Line) : Line :=
  "Updated section ".data ++ name ++ " with new content from source".data

/-- String constant used below. -/
def strAdd : Line := "ADD".data

/-- String constant used below. -/
def strUpdate : Line := "UPDATE".data

/-- String constant used below. -/
def strOpenBrace : Line := "\x7b".data

/-- String constant used below. -/
def strCloseBrace : Line := "\x7d".data

/-- One pass of the loop body of the nested helper `extract_content_lines`
(identical in `_migrate_new_section` and `_migrate_existing_section`): the
stripped line, when it is kept. -/
def meaningfulLine (l : Line) : Option Line :=
  let stripped := pyStrip l
  if !stripped.isEmpty &&
     !startsWith strLineComment stripped &&
     !startsWith strBlockComment stripped &&
     !startsWith strOpenBrace stripped &&
     !startsWith strCloseBrace stripped &&
     !endsWith strOpenBrace stripped &&
     !endsWith strCloseBrace stripped
  then some stripped else none

/-- The nested helper `extract_content_lines`: keep and strip "meaningful"
lines of a section's content. -/
def extractContentLines (content : List Line) : List Line :=
  content.filterMap meaningfulLine

/-- Python slice assignment `l[p:p] = xs` (and, for a singleton `xs`,
`list.insert(p, x)`): insert `xs` at position `p`, clamping past-the-end
positions to the end. -/
def insertAt (l : List Line) (p : Nat) (xs : List Line) : List Line :=
  l.take p ++ xs ++ l.drop p

/-- The backward scan of `_migrate_new_section`: index of the last line whose
stripped form is exactly `"\x7d"`, if any. -/
def lastCloseIdx (lines : List Line) : Option Nat :=
  match lines with
  | [] => none
  | l :: ls =>
    match lastCloseIdx ls with
    | some j => some (j + 1)
    | none => if pyStrip l = strCloseBrace then some 0 else none

/-- The insertion position chosen by `_migrate_new_section`: the last
standalone closing-brace line, defaulting to end-of-file. -/
def newInsertPos (lines : List Line) : Nat := (lastCloseIdx lines).getD lines.length

/-- The Add change record created by `_migrate_new_section` (it depends only
on the section name and the source section). -/
def newChangeOf (name : Line) (srcSec : GradleSection) : MigrationChange :=
  ⟨name, strAdd, addDescription name,
   addCountDetail srcSec.content.length :: extractContentLines srcSec.content⟩

/-- `BuildGradleMigrator._migrate_new_section`, as a pure function of the
freshly re-read target file lines and the source section: returns the written
file lines and the recorded change. -/
def migrateNewSection (name : Line) (targetLines : List Line)
    (srcSec : GradleSection) : List Line × MigrationChange :=
  let pos := newInsertPos targetLines
  (insertAt targetLines pos (addMarkerComment :: srcSec.content ++ [['\n']]),
   newChangeOf name srcSec)

/-- The forward scan of `_migrate_existing_section` looking for the first
line containing `'{'`, carrying the absolute index of the first element. -/
def firstBraceGo (ls : List Line) (j : Nat) : Option Nat :=
  match ls with
  | [] => none
  | l :: ls' => if l.contains '{' then some j else firstBraceGo ls' (j + 1)

/-- The content insertion position of `_migrate_existing_section`: one past
the first line containing `'{'` at or after `sectionStart` (in the lines as
they are after the marker-comment insertion), defaulting to
`sectionStart + 1`. -/
def updateInsertPos (lines : List Line) (sectionStart : Nat) : Nat :=
  match firstBraceGo (lines.drop sectionStart) sectionStart with
  | some j => j + 1
  | none => sectionStart + 1

/-- The list `new_content` of `_migrate_existing_section`: source meaningful
lines absent (by exact string match of the stripped lines) from the target
meaningful lines. -/
def newContentOf (srcSec tgtSec : GradleSection) : List Line :=
  (extractContentLines srcSec.content).filter
    (fun l => !(extractContentLines tgtSec.content).contains l)

/-- The Update change record created by `_migrate_existing_section`. -/
def updateChangeOf (name : Line) (srcSec tgtSec : GradleSection) : MigrationChange :=
  ⟨name, strUpdate, updateDescription name, newContentOf srcSec tgtSec⟩

/-- `BuildGradleMigrator._migrate_existing_section`, as a pure function of
the freshly re-read target file lines and the two section records: returns
the file lines (written back when changed) and the recorded change, if any.
Note that, exactly as in the source, the insertion position is
`tgtSec.startLine` taken from the section *record* (produced by the initial
parse of the target), not a position derived from `targetLines`. -/
def migrateExistingSection (name : Line) (targetLines : List Line)
    (srcSec tgtSec : GradleSection) : List Line × Option MigrationChange :=
  let newContent := newContentOf srcSec tgtSec
  if newContent.isEmpty then (targetLines, none)
  else
    let sectionStart := tgtSec.startLine
    let lines1 := insertAt targetLines sectionStart [updateMarkerComment]
    let ip := updateInsertPos lines1 sectionStart
    let newContentLines := newContent.foldr
      (fun c acc =>
        (if !c.isEmpty && !startsWith strLineComment c then
          [perLineMarkerComment, "    ".data ++ c ++ ['\n']]
        else []) ++ acc) []
    (insertAt lines1 ip newContentLines,
     some (updateChangeOf name srcSec tgtSec))

/-- Modelled from the spec: the Step-2 variant described by the specification,
which after re-reading the current target file also re-derives the common
section's record (and hence its start position) fresh from the re-read lines
instead of using the record captured by the initial parse.  Used only to
compare the code's `migrateExistingSection` against the spec's words. -/
def migrateExistingSectionFresh (name : Line) (targetLines : List Line)
    (srcSec : GradleSection) : List Line × Option MigrationChange :=
  match dictGet (identifySections targetLines) name with
  | some tgtSec => migrateExistingSection name targetLines srcSec tgtSec
  | none => (targetLines, none)

/-- The character-by-character brace scan of `validate_gradle_structure`:
`none` when the running count goes negative, otherwise the final count. -/
def braceScan (cs : List Char) (bc : Int) : Option Int :=
  match cs with
  | [] => some bc
  | c :: cs' =>
    if c = '{' then braceScan cs' (bc + 1)
    else if c = '}' then
      if bc - 1 < 0 then none else braceScan cs' (bc - 1)
    else braceScan cs' bc

/-- Validation error `"Unbalanced braces detected"`. -/
def unbalancedNegMsg : Line := "Unbalanced braces detected".data

/-- Validation error `f"Unbalanced braces: \x7bbrace_count\x7d unclosed braces"`. -/
def unbalancedMsg (bc : Int) : Line :=
  "Unbalanced braces: ".data ++ (toString bc).data ++ " unclosed braces".data

/-- Validation error `f"Duplicate sections found: \x7b...\x7d"`. -/
def dupMsg (dups : List Line) : Line :=
  "Duplicate sections found: ".data ++ ( ", ".data).intercalate dups

/-- `BuildGradleMigrator.validate_gradle_structure`, as a pure function of
the final target file lines: the returned Bool and the validation errors
appended during the call.  The duplicate check inspects the *values of the
dict* returned by `identify_sections` (in which duplicate names have already
collapsed to one entry); the Python list comprehension iterates
`set(section_names)`, modelled here by `dedup` (irrelevant to any theorem
below, since the duplicate list is provably always empty). -/
def validateGradleStructure (targetLines : List Line) : Bool × List Line :=
  match braceScan targetLines.flatten 0 with
  | none => (false, [unbalancedNegMsg])
  | some bc =>
    if bc ≠ 0 then (false, [unbalancedMsg bc])
    else
      let sectionNames := (dictValues (identifySections targetLines)).map GradleSection.name
      let duplicates := sectionNames.dedup.filter (fun n => sectionNames.count n > 1)
      if !duplicates.isEmpty then (false, [dupMsg duplicates])
      else (true, [])

/-- The migration state threaded through `migrate_sections`: the target file
as currently on disk (each step re-reads it) and the accumulated
`migration_changes` log. -/
structure MigState where
  targetLines : List Line
  changes : List MigrationChange
deriving DecidableEq, Repr

/-- One iteration of the Step-1 loop of `migrate_sections`: look up the
source section and run `_migrate_new_section` against the current target
file state. -/
def stepNew (srcSections : SectionDict) (st : MigState) (name : Line) : MigState :=
  match dictGet srcSections name with
  | some sec =>
    let r := migrateNewSection name st.targetLines sec
    ⟨r.1, st.changes ++ [r.2]⟩
  | none => st

/-- One iteration of the Step-2 loop of `migrate_sections`: look up both
section records (the target one from the *initial* parse held in
`self.target_sections`) and run `_migrate_existing_section` against the
current target file state. -/
def stepExisting (srcSections tgtSections : SectionDict) (st : MigState)
    (name : Line) : MigState :=
  match dictGet srcSections name, dictGet tgtSections name with
  | some s, some t =>
    let r := migrateExistingSection name st.targetLines s t
    ⟨r.1, st.changes ++ r.2.toList⟩
  | _, _ => st

/-- Modelled from the spec: one Step-2 iteration that re-derives the target
section record fresh from the current file state
(`migrateExistingSectionFresh`), for comparison with `stepExisting`. -/
def stepExistingFresh (srcSections : SectionDict) (st : MigState)
    (name : Line) : MigState :=
  match dictGet srcSections name with
  | some s =>
    let r := migrateExistingSectionFresh name st.targetLines s
    ⟨r.1, st.changes ++ r.2.toList⟩
  | none => st

/-- The names iterated by the Step-1 loop: elements of the Python set
`source_sections.keys() - target_sections.keys()`, listed here in first-seen
source order (the actual Python iteration order of the set is unspecified;
see `IsSetOrder`). -/
def sourceOnlyNames (srcS tgtS : SectionDict) : List Line :=
  (dictKeys srcS).filter (fun k => !(dictKeys tgtS).contains k)

/-- The names iterated by the Step-2 loop: elements of the Python set
`source_sections.keys() & target_sections.keys()`, listed in first-seen
source order. -/
def commonNames (srcS tgtS : SectionDict) : List Line :=
  (dictKeys srcS).filter (fun k => (dictKeys tgtS).contains k)

/-- `o` is a possible iteration order of a Python set whose elements are
exactly those of `xs`: each element exactly once, in some order.  CPython
iterates sets in hash-table order, which for strings is randomized per
process, so any such `o` can occur. -/
def IsSetOrder (o xs : List Line) : Prop :=
  o.Nodup ∧ (∀ x ∈ o, x ∈ xs) ∧ (∀ x ∈ xs, x ∈ o)

instance (o xs : List Line) : Decidable (IsSetOrder o xs) := by
  unfold IsSetOrder; infer_instance

/-- `BuildGradleMigrator.migrate_sections`, parameterized by the iteration
orders of the two Python sets (constrained to `IsSetOrder` in the theorems):
the Step-1 loop over source-only names, then the Step-2 loop over common
names, each step re-reading the target file state written by the previous
one. -/
def migrateSectionsWithOrders (srcS tgtS : SectionDict)
    (newOrder commonOrder : List Line) (st : MigState) : MigState :=
  commonOrder.foldl (stepExisting srcS tgtS) (newOrder.foldl (stepNew srcS) st)

/-- Modelled from the spec: `migrate_sections` with the spec's fresh
re-derivation in Step 2, for comparison with `migrateSectionsWithOrders`. -/
def migrateSectionsFreshWithOrders (srcS : SectionDict)
    (newOrder commonOrder : List Line) (st : MigState) : MigState :=
  commonOrder.foldl (stepExistingFresh srcS) (newOrder.foldl (stepNew srcS) st)

/-- Error message of `read_gradle_file`: `f"File not found: \x7bfile_path\x7d"`. -/
def fileNotFoundMsg (path : Line) : Line := "File not found: ".data ++ path

/-- Wrapping applied by `parse_gradle_files`:
`f"Error reading Gradle file: \x7be\x7d"`. -/
def parseErrWrap (e : Line) : Line := "Error reading Gradle file: ".data ++ e

/-- Wrapping applied by the top-level handler of `run_migration`:
`f"Migration failed with error: \x7be\x7d"`. -/
def runErrWrap (e : Line) : Line := "Migration failed with error: ".data ++ e

/-- `read_gradle_file` over an explicit file-system model: `none` models a
missing file (in which case `FileNotFoundError` is raised). -/
def readGradleFile (path : Line) (file : Option (List Line)) :
    Except Line (List Line) :=
  match file with
  | none => Except.error (fileNotFoundMsg path)
  | some ls => Except.ok ls

/-- The observable outcome of `run_migration`: the target file content after
the run, the recorded changes, and the failure message if the run failed. -/
structure RunOutcome where
  finalTarget : Option (List Line)
  changes : List MigrationChange
  failure : Option Line
deriving DecidableEq, Repr

/-- `BuildGradleMigrator.run_migration` restricted to what the claims
observe: parse both files (source first, as in `parse_gradle_files`; a
missing file raises through the wrapping of `parse_gradle_files` to the
top-level handler before any merge step runs), then run `migrate_sections`.
Validation and summary generation follow in the source but never mutate the
target file or the change log. -/
def runMigration (sourcePath targetPath : Line)
    (sourceFile targetFile : Option (List Line))
    (newOrder commonOrder : List Line) : RunOutcome :=
  match readGradleFile sourcePath sourceFile with
  | Except.error e => ⟨targetFile, [], some (runErrWrap (parseErrWrap e))⟩
  | Except.ok sl =>
    match readGradleFile targetPath targetFile with
    | Except.error e => ⟨targetFile, [], some (runErrWrap (parseErrWrap e))⟩
    | Except.ok tl =>
      let st := migrateSectionsWithOrders (identifySections sl)
        (identifySections tl) newOrder commonOrder ⟨tl, []⟩
      ⟨some st.targetLines, st.changes, none⟩

/-- Concrete section used by witnesses. -/
def secW : GradleSection :=
  ⟨ "deps".data, [ "deps \x7b\n".data, "    impl aa\n".data, "\x7d\n".data], 0, 2,
   .custom, []⟩

/-- The claim-side classification a stripped content line must satisfy to be
kept by `extract_content_lines`: what the code actually requires (note the
two `endsWith` conjuncts, absent from the claim). -/
def strippedMeaningful (s : Line) : Bool :=
  !s.isEmpty &&
  !startsWith strLineComment s &&
  !startsWith strBlockComment s &&
  !startsWith strOpenBrace s &&
  !startsWith strCloseBrace s &&
  !endsWith strOpenBrace s &&
  !endsWith strCloseBrace s

/-- Concrete line refuting C4 as stated. -/
def c4Line : Line := "    maven \x7b\n".data

/-- Concrete target file of the C1 counterexample. -/
def exTgt : List Line :=
  [ "alpha \x7b\n".data, "\x7d\n".data, "beta \x7b b1\n".data, "    b2 \x7d\n".data]

/-- Concrete source file of the C1 counterexample. -/
def exSrc : List Line :=
  [ "gamma \x7b\n".data, "    g1\n".data, "\x7d\n".data, "beta \x7b\n".data,
    "    b9\n".data, "\x7d\n".data]

/-- Name constant of the C1 counterexample. -/
def nmGamma : Line := "gamma".data

/-- Name constant of the C1 counterexample. -/
def nmBeta : Line := "beta".data

/-- The Add change which a Step-1 iteration for `name` appends, when the
name is in the source dict. -/
def newChangeOpt (srcS : SectionDict) (name : Line) : Option MigrationChange :=
  (dictGet srcS name).map (fun sec => newChangeOf name sec)

/-- The Update change which a Step-2 iteration for `name` appends, when the
name is in both dicts and the diff is non-empty. -/
def updateChangeOpt (srcS tgtS : SectionDict) (name : Line) :
    Option MigrationChange :=
  match dictGet srcS name, dictGet tgtS name with
  | some s, some t =>
    if (newContentOf s t).isEmpty then none else some (updateChangeOf name s t)
  | _, _ => none

/-- A side-by-side check of the scanner's captures, with the same loop
structure as `identifyGo`: at every captured section it checks that the
header line has net brace count exactly one and that the capture loop stops
with the running counter exactly at zero (rather than jumping below zero or
running off end-of-input). -/
def wellScan (fuel : Nat) (rest : List Line) : Bool :=
  match fuel, rest with
  | _, [] => true
  | 0, _ :: _ => true
  | fuel + 1, l :: ls =>
    let s := pyStrip l
    if s.isEmpty || startsWith strLineComment s || startsWith strBlockComment s then
      wellScan fuel ls
    else
      match sectionMatch s with
      | some _ =>
        (braceDelta l == 1) &&
        (1 + netBraces (ls.take (captureLen ls 1)) == 0) &&
        wellScan fuel (ls.drop (captureLen ls 1))
      | none => wellScan fuel ls

/-- A file passes the capture well-formedness check. -/
def wellFormedScan (lines : List Line) : Bool := wellScan lines.length lines

/-- Invariant of one captured section relative to the whole scanned file and
an index bound: positions are ordered and below the bound, the recorded
content is exactly the slice of the file between the recorded positions, and
the content is brace-balanced. -/
def SecInv (full : List Line) (bound : Nat) (s : GradleSection) : Prop :=
  s.startLine ≤ s.endLine ∧ s.endLine < bound ∧
  s.content = (full.drop s.startLine).take (s.endLine + 1 - s.startLine) ∧
  netBraces s.content = 0

/-- Two sections occupy disjoint line ranges. -/
def RangesDisjoint (s t : GradleSection) : Prop :=
  s.endLine < t.startLine ∨ t.endLine < s.startLine

/-- Invariant of the whole section dict built by the scanner. -/
def DictInv (full : List Line) (bound : Nat) (d : SectionDict) : Prop :=
  (∀ p ∈ d, SecInv full bound p.2) ∧
  (∀ p ∈ d, ∀ q ∈ d, p.1 ≠ q.1 → RangesDisjoint p.2 q.2)

/-- Concrete file of the C3 failing input: two top-level `plugins` blocks. -/
def dupFile : List Line :=
  [ "plugins \x7b\n".data, "    id aa\n".data, "\x7d\n".data,
    "plugins \x7b\n".data, "    id bb\n".data, "\x7d\n".data]

/-- Concrete file of the C7 counterexample. -/
def c7File : List Line :=
  [ "\x7b\n".data, "alpha \x7b x \x7d\n".data, "\x7d\n".data]

/-- Concrete well-formed file used by witnesses. -/
def wfFile : List Line :=
  [ "repos \x7b\n".data, "    maven\n".data, "\x7d\n".data, "\n".data,
    "deps \x7b\n".data, "    impl cc\n".data, "\x7d\n".data]

/-- Name constant of the C2 counterexample. -/
def nmAaa : Line := "aaa".data

/-- Name constant of the C2 counterexample. -/
def nmBbb : Line := "bbb".data

/-- Concrete source file of the C2 counterexample: two source-only
sections. -/
def ordSrc : List Line :=
  [ "aaa \x7b\n".data, "\x7d\n".data, "bbb \x7b\n".data, "\x7d\n".data]

/-- Concrete target file of the C2 counterexample. -/
def ordTgt : List Line :=
  [ "zzz \x7b\n".data, "\x7d\n".data]

/-- A list is always a sublist of the result of inserting into it. -/
lemma sublist_insertAt (l : List Line) (p : Nat) (xs : List Line) :
    l.Sublist (insertAt l p xs) := by
  unfold insertAt
  rw [List.append_assoc]
  conv_lhs => rw [← List.take_append_drop p l]
  exact List.Sublist.append_left (List.sublist_append_right xs _) _

/-- C9: every merge write is insert-only — for both the new-section step and
the common-section step, the target file's lines immediately before the write
form a sublist (same relative order, nothing deleted or edited) of the lines
after the write. -/
theorem merge_writes_insert_only :
    (∀ (name : Line) (lines : List Line) (sec : GradleSection),
        lines.Sublist (migrateNewSection name lines sec).1) ∧
    (∀ (name : Line) (lines : List Line) (s t : GradleSection),
        lines.Sublist (migrateExistingSection name lines s t).1) := by
  constructor
  · intro name lines sec
    exact sublist_insertAt lines (newInsertPos lines) _
  · intro name lines s t
    unfold migrateExistingSection
    by_cases h : (newContentOf s t).isEmpty
    · simp [h]
    · simp only [h, Bool.false_eq_true, if_false]
      exact (sublist_insertAt lines t.startLine [updateMarkerComment]).trans
        (sublist_insertAt _ _ _)

/-- C6: when every source meaningful line already occurs among the target
section's meaningful lines, the common-section step leaves the file unchanged
and records no change. -/
theorem migrateExistingSection_noop (name : Line) (lines : List Line)
    (s t : GradleSection)
    (h : ∀ l ∈ extractContentLines s.content, l ∈ extractContentLines t.content) :
    migrateExistingSection name lines s t = (lines, none) := by
  have hnc : newContentOf s t = [] := by
    unfold newContentOf
    rw [List.filter_eq_nil_iff]
    intro a ha
    simp [h a ha]
  unfold migrateExistingSection
  rw [hnc]
  rfl

/-- Witness for `migrateExistingSection_noop` at a concrete input. -/
theorem migrateExistingSection_noop_witness :
    migrateExistingSection ( "deps".data) [ "x \x7b\n".data, "\x7d\n".data] secW secW =
      ([ "x \x7b\n".data, "\x7d\n".data], none) :=
  migrateExistingSection_noop ( "deps".data) [ "x \x7b\n".data, "\x7d\n".data] secW secW
    (by decide)

/-- C4 (amended): a line of section content is kept by
`extract_content_lines` exactly when its stripped form is non-empty, does not
begin a line or block comment, does not *begin* with a brace, and does not
*end* with a brace — so a line carrying content but ending in a brace is
excluded, contrary to the original claim. -/
theorem extractContentLines_characterization (content : List Line) :
    extractContentLines content = (content.map pyStrip).filter strippedMeaningful := by
  induction content with
  | nil => rfl
  | cons l ls ih =>
    have hl : meaningfulLine l =
        if strippedMeaningful (pyStrip l) = true then some (pyStrip l) else none := rfl
    unfold extractContentLines at ih
    by_cases h : strippedMeaningful (pyStrip l) = true
    · simp [extractContentLines, List.filterMap_cons, hl, h, List.filter_cons, ih]
    · simp [extractContentLines, List.filterMap_cons, hl, h, List.filter_cons, ih]

/-- C4 counterexample: the line `"    maven \x7b"` strips to a non-blank,
non-comment line that is not solely a brace (it merely ends with one while
carrying other content), so by the claim it is meaningful; yet
`extract_content_lines` drops it. -/
theorem c4_counterexample :
    extractContentLines [c4Line] = [] ∧
    pyStrip c4Line ≠ [] ∧
    startsWith strLineComment (pyStrip c4Line) = false ∧
    startsWith strBlockComment (pyStrip c4Line) = false ∧
    pyStrip c4Line ≠ strOpenBrace ∧
    pyStrip c4Line ≠ strCloseBrace := by
  refine ⟨by decide, by decide, by decide, by decide, by decide, by decide⟩

/-- C8: when either configuration file path does not refer to an existing
file, the run fails with the file-not-found condition raised during the
initial parse (wrapped by `parse_gradle_files` and the top-level handler of
`run_migration`), the target file is not mutated, and no change is
recorded. -/
theorem runMigration_missing_file (sp tp : Line) (sf tf : Option (List Line))
    (no co : List Line) (h : sf = none ∨ tf = none) :
    runMigration sp tp sf tf no co =
      ⟨tf, [], some (runErrWrap (parseErrWrap (fileNotFoundMsg
        (if sf.isNone then sp else tp))))⟩ := by
  rcases h with h | h
  · subst h
    rfl
  · subst h
    cases sf with
    | none => rfl
    | some sl => rfl

/-- Witness for `runMigration_missing_file` at a concrete input. -/
theorem runMigration_missing_file_witness :
    runMigration ( "src.gradle".data) ( "tgt.gradle".data) none
        (some [ "a \x7b\n".data, "\x7d\n".data]) [] [] =
      ⟨some [ "a \x7b\n".data, "\x7d\n".data], [],
       some (runErrWrap (parseErrWrap (fileNotFoundMsg ( "src.gradle".data))))⟩ :=
  runMigration_missing_file ( "src.gradle".data) ( "tgt.gradle".data) none
    (some [ "a \x7b\n".data, "\x7d\n".data]) [] [] (Or.inl rfl)

/-- When the backward scan finds no standalone closing-brace line, no line of
the file strips to `"\x7d"`. -/
lemma lastCloseIdx_none (lines : List Line) (h : lastCloseIdx lines = none) :
    ∀ (j : Nat) (l : Line), lines[j]? = some l → pyStrip l ≠ strCloseBrace := by
  induction lines with
  | nil => intro j l hj; simp at hj
  | cons a ls ih =>
    intro j l hj
    unfold lastCloseIdx at h
    cases hrec : lastCloseIdx ls with
    | some j' => rw [hrec] at h; simp at h
    | none =>
      rw [hrec] at h
      by_cases ha : pyStrip a = strCloseBrace
      · rw [if_pos ha] at h; simp at h
      · cases j with
        | zero => simp at hj; subst hj; exact ha
        | succ j' =>
          rw [List.getElem?_cons_succ] at hj
          exact ih hrec j' l hj

/-- When the backward scan returns `some j`, line `j` strips to `"\x7d"`, is in
bounds, and is the last such line. -/
lemma lastCloseIdx_some (lines : List Line) (j : Nat)
    (h : lastCloseIdx lines = some j) :
    j < lines.length ∧
    (∃ l, lines[j]? = some l ∧ pyStrip l = strCloseBrace) ∧
    (∀ (k : Nat) (l' : Line), j < k → lines[k]? = some l' →
      pyStrip l' ≠ strCloseBrace) := by
  induction lines generalizing j with
  | nil => simp [lastCloseIdx] at h
  | cons a ls ih =>
    unfold lastCloseIdx at h
    cases hrec : lastCloseIdx ls with
    | some j' =>
      rw [hrec] at h
      simp only [Option.some.injEq] at h
      subst h
      obtain ⟨hlt, ⟨l, hl, hcl⟩, hlast⟩ := ih j' hrec
      refine ⟨by simpa using Nat.succ_lt_succ hlt, ⟨l, by simpa using hl, hcl⟩, ?_⟩
      intro k l' hk hkl
      cases k with
      | zero => omega
      | succ k' =>
        rw [List.getElem?_cons_succ] at hkl
        exact hlast k' l' (by omega) hkl
    | none =>
      rw [hrec] at h
      by_cases ha : pyStrip a = strCloseBrace
      · rw [if_pos ha] at h
        simp only [Option.some.injEq] at h
        subst h
        refine ⟨by simp, ⟨a, by simp, ha⟩, ?_⟩
        intro k l' hk hkl
        cases k with
        | zero => omega
        | succ k' =>
          rw [List.getElem?_cons_succ] at hkl
          exact lastCloseIdx_none ls hrec k' l' hkl
      · rw [if_neg ha] at h; simp at h

/-- The insertion position of the new-section step never exceeds the file
length. -/
lemma newInsertPos_le (lines : List Line) : newInsertPos lines ≤ lines.length := by
  unfold newInsertPos
  cases h : lastCloseIdx lines with
  | none => simp
  | some j => simpa using Nat.le_of_lt (lastCloseIdx_some lines j h).1

/-- C5: the new-section step inserts, at the index of the last line stripping
to a standalone `"\x7d"` (end-of-file when there is none), the marker comment
followed by the source section's full content and a trailing blank line, and
records an Add change whose leading detail carries the content's line
count. -/
theorem migrateNewSection_spec (name : Line) (lines : List Line)
    (sec : GradleSection) :
    (migrateNewSection name lines sec).1 =
      lines.take (newInsertPos lines) ++ [addMarkerComment] ++ sec.content ++
        [['\n']] ++ lines.drop (newInsertPos lines) ∧
    newInsertPos lines ≤ lines.length ∧
    ((∃ l, lines[newInsertPos lines]? = some l ∧ pyStrip l = strCloseBrace) ∨
      (newInsertPos lines = lines.length ∧
        ∀ (j : Nat) (l : Line), lines[j]? = some l → pyStrip l ≠ strCloseBrace)) ∧
    (∀ (j : Nat) (l : Line), newInsertPos lines < j → lines[j]? = some l →
      pyStrip l ≠ strCloseBrace) ∧
    (migrateNewSection name lines sec).2 =
      ⟨name, strAdd, addDescription name,
       addCountDetail sec.content.length :: extractContentLines sec.content⟩ := by
  refine ⟨?_, newInsertPos_le lines, ?_, ?_, rfl⟩
  · simp [migrateNewSection, insertAt]
  · cases h : lastCloseIdx lines with
    | none =>
      right
      refine ⟨by simp [newInsertPos, h], fun j l hj => lastCloseIdx_none lines h j l hj⟩
    | some j =>
      left
      obtain ⟨_, hex, _⟩ := lastCloseIdx_some lines j h
      simpa [newInsertPos, h] using hex
  · intro j l hj hjl
    cases h : lastCloseIdx lines with
    | none => exact lastCloseIdx_none lines h j l hjl
    | some j' =>
      rw [newInsertPos, h] at hj
      exact (lastCloseIdx_some lines j' h).2.2 j l hj hjl

/-- Length of an insertion. -/
lemma length_insertAt (l : List Line) (p : Nat) (xs : List Line) :
    (insertAt l p xs).length = l.length + xs.length := by
  unfold insertAt
  simp only [List.length_append, List.length_take, List.length_drop]
  omega

/-- Indices strictly below both the insertion point and the original length
are untouched by an insertion. -/
lemma getElem?_insertAt_lt (l : List Line) (p j : Nat) (xs : List Line)
    (hj : j < p) (hjl : j < l.length) : (insertAt l p xs)[j]? = l[j]? := by
  unfold insertAt
  rw [List.append_assoc, List.getElem?_append, if_pos, List.getElem?_take, if_pos hj]
  rw [List.length_take]
  omega

/-- The forward brace scan only returns indices at or after its starting
index. -/
lemma firstBraceGo_ge (ls : List Line) (j r : Nat)
    (h : firstBraceGo ls j = some r) : j ≤ r := by
  induction ls generalizing j with
  | nil => simp [firstBraceGo] at h
  | cons a ls' ih =>
    unfold firstBraceGo at h
    by_cases ha : a.contains '{'
    · rw [if_pos ha] at h
      simp only [Option.some.injEq] at h
      omega
    · rw [if_neg ha] at h
      have := ih (j + 1) h
      omega

/-- The content insertion position of the common-section step is always past
the (stale) section start. -/
lemma updateInsertPos_ge (lines : List Line) (s : Nat) :
    s + 1 ≤ updateInsertPos lines s := by
  unfold updateInsertPos
  cases h : firstBraceGo (lines.drop s) s with
  | none => exact Nat.le_refl _
  | some r =>
    show s + 1 ≤ r + 1
    have := firstBraceGo_ge _ _ _ h
    omega

/-- C1 (amended): the common-section step re-reads the current target file
lines before inserting, but derives the insertion position from the
`start_line` captured by the initial parse of the target (held in the section
record), not from the re-read file: whenever it mutates the file at all, the
marker comment lands exactly at the stale index `tgtSec.startLine` (clamped
to the file length), regardless of where the section actually sits in the
re-read lines. -/
theorem migrateExistingSection_stale_start (name : Line) (lines : List Line)
    (s t : GradleSection) (h : newContentOf s t ≠ []) :
    ((migrateExistingSection name lines s t).1)[min t.startLine lines.length]? =
      some updateMarkerComment := by
  have hni : (newContentOf s t).isEmpty = false := by
    simpa [List.isEmpty_iff] using h
  unfold migrateExistingSection
  simp only [hni, Bool.false_eq_true, if_false]
  have h1 : min t.startLine lines.length <
      updateInsertPos (insertAt lines t.startLine [updateMarkerComment]) t.startLine := by
    have := updateInsertPos_ge (insertAt lines t.startLine [updateMarkerComment]) t.startLine
    omega
  have h2 : min t.startLine lines.length <
      (insertAt lines t.startLine [updateMarkerComment]).length := by
    rw [length_insertAt]
    simp only [List.length_cons, List.length_nil]
    omega
  rw [getElem?_insertAt_lt _ _ _ _ h1 h2]
  unfold insertAt
  rw [List.append_assoc,
    List.getElem?_append_right (by rw [List.length_take])]
  rw [List.length_take]
  simp

/-- C1 counterexample: on these files (`gamma` is source-only, `beta` is
common, and each iteration set is a singleton, so the set orders are forced),
the run that — like the code — reuses the `start_line` of the initial target
parse writes a different final target file than the spec-described run that
re-derives `beta`'s position from the re-read file: the Step-1 insertion
shifted `beta` from line 2 to line 7, and the code inserts at the stale
index 2, inside the block added by Step 1. -/
theorem c1_counterexample :
    IsSetOrder [nmGamma]
      (sourceOnlyNames (identifySections exSrc) (identifySections exTgt)) ∧
    IsSetOrder [nmBeta]
      (commonNames (identifySections exSrc) (identifySections exTgt)) ∧
    (migrateSectionsWithOrders (identifySections exSrc) (identifySections exTgt)
        [nmGamma] [nmBeta] ⟨exTgt, []⟩).targetLines ≠
      (migrateSectionsFreshWithOrders (identifySections exSrc)
        [nmGamma] [nmBeta] ⟨exTgt, []⟩).targetLines := by
  refine ⟨by decide, by decide, by decide⟩

/-- Witness for `migrateExistingSection_stale_start` at a concrete input:
the stale record places `beta` at line 0 even though in the given (current)
lines the `beta` block sits at line 2, and the marker comment indeed lands at
index 0. -/
theorem migrateExistingSection_stale_start_witness :
    newContentOf
        ⟨nmBeta, [ "beta \x7b\n".data, "    b9\n".data, "\x7d\n".data], 3, 5, .custom, []⟩
        ⟨nmBeta, [ "beta \x7b\n".data, "\x7d\n".data], 0, 1, .custom, []⟩ ≠ [] ∧
    ((migrateExistingSection nmBeta
        [ "x \x7b\n".data, "\x7d\n".data, "beta \x7b\n".data, "\x7d\n".data]
        ⟨nmBeta, [ "beta \x7b\n".data, "    b9\n".data, "\x7d\n".data], 3, 5, .custom, []⟩
        ⟨nmBeta, [ "beta \x7b\n".data, "\x7d\n".data], 0, 1, .custom, []⟩).1)[
          min 0 ([ "x \x7b\n".data, "\x7d\n".data, "beta \x7b\n".data, "\x7d\n".data] :
            List Line).length]? = some updateMarkerComment :=
  ⟨by decide,
   migrateExistingSection_stale_start nmBeta
     [ "x \x7b\n".data, "\x7d\n".data, "beta \x7b\n".data, "\x7d\n".data]
     ⟨nmBeta, [ "beta \x7b\n".data, "    b9\n".data, "\x7d\n".data], 3, 5, .custom, []⟩
     ⟨nmBeta, [ "beta \x7b\n".data, "\x7d\n".data], 0, 1, .custom, []⟩ (by decide)⟩

/-- C3 (code bug): `validate_gradle_structure` builds its name list from the
values of the dict returned by `identify_sections`, in which the two
top-level `plugins` blocks have already collapsed to a single entry, so its
duplicate check can never fire: on a file with two `plugins` blocks it
returns success with no errors, while the spec requires a FAILED result
naming `plugins`.  The raw (pre-collapse) scan of the same file does see the
name twice. -/
theorem duplicate_sections_never_detected :
    validateGradleStructure dupFile = (true, []) ∧
    rawSectionNames dupFile = [strPlugins, strPlugins] ∧
    dictKeys (identifySections dupFile) = [strPlugins] := by
  refine ⟨by decide, by decide, by decide⟩

/-- C2 counterexample: with two source-only sections `aaa` and `bbb`, both
`[aaa, bbb]` and `[bbb, aaa]` are possible iteration orders of the Python set
`source_only_sections` (set iteration order is hash-randomized, not
first-seen source order), and the two orders produce different change
logs — so repeated runs are not guaranteed an identical change log. -/
theorem c2_counterexample :
    IsSetOrder [nmAaa, nmBbb]
      (sourceOnlyNames (identifySections ordSrc) (identifySections ordTgt)) ∧
    IsSetOrder [nmBbb, nmAaa]
      (sourceOnlyNames (identifySections ordSrc) (identifySections ordTgt)) ∧
    IsSetOrder [] (commonNames (identifySections ordSrc) (identifySections ordTgt)) ∧
    (migrateSectionsWithOrders (identifySections ordSrc) (identifySections ordTgt)
        [nmAaa, nmBbb] [] ⟨ordTgt, []⟩).changes ≠
      (migrateSectionsWithOrders (identifySections ordSrc) (identifySections ordTgt)
        [nmBbb, nmAaa] [] ⟨ordTgt, []⟩).changes := by
  refine ⟨by decide, by decide, by decide, by decide⟩

/-- The change appended by one Step-1 iteration depends only on the section
name and the source dict, never on the current file state. -/
lemma stepNew_changes (srcS : SectionDict) (st : MigState) (name : Line) :
    (stepNew srcS st name).changes =
      st.changes ++ (newChangeOpt srcS name).toList := by
  unfold stepNew newChangeOpt
  cases dictGet srcS name with
  | none => simp
  | some sec => simp [migrateNewSection]

/-- Changes accumulated by the whole Step-1 loop. -/
lemma foldl_stepNew_changes (srcS : SectionDict) (o : List Line) :
    ∀ st : MigState, (o.foldl (stepNew srcS) st).changes =
      st.changes ++ o.filterMap (newChangeOpt srcS) := by
  induction o with
  | nil => intro st; simp
  | cons a o ih =>
    intro st
    rw [List.foldl_cons, ih, stepNew_changes]
    cases h : newChangeOpt srcS a with
    | none => simp [List.filterMap_cons, h]
    | some b => simp [List.filterMap_cons, h]

/-- The change appended by one Step-2 iteration depends only on the section
name and the two section dicts, never on the current file state. -/
lemma stepExisting_changes (srcS tgtS : SectionDict) (st : MigState)
    (name : Line) :
    (stepExisting srcS tgtS st name).changes =
      st.changes ++ (updateChangeOpt srcS tgtS name).toList := by
  unfold stepExisting updateChangeOpt
  cases hs : dictGet srcS name with
  | none => simp
  | some s =>
    cases ht : dictGet tgtS name with
    | none => simp
    | some t =>
      by_cases h : (newContentOf s t).isEmpty
      · simp [migrateExistingSection, h]
      · simp [migrateExistingSection, h]

/-- Changes accumulated by the whole Step-2 loop. -/
lemma foldl_stepExisting_changes (srcS tgtS : SectionDict) (o : List Line) :
    ∀ st : MigState, (o.foldl (stepExisting srcS tgtS) st).changes =
      st.changes ++ o.filterMap (updateChangeOpt srcS tgtS) := by
  induction o with
  | nil => intro st; simp
  | cons a o ih =>
    intro st
    rw [List.foldl_cons, ih, stepExisting_changes]
    cases h : updateChangeOpt srcS tgtS a with
    | none => simp [List.filterMap_cons, h]
    | some b => simp [List.filterMap_cons, h]

/-- Two valid iteration orders of the same Python set are permutations of
each other. -/
lemma perm_of_set_orders (o₁ o₂ xs : List Line) (h₁ : IsSetOrder o₁ xs)
    (h₂ : IsSetOrder o₂ xs) : o₁.Perm o₂ := by
  refine (List.perm_ext_iff_of_nodup h₁.1 h₂.1).2 (fun a => ?_)
  exact ⟨fun ha => h₂.2.2 a (h₁.2.1 a ha), fun ha => h₁.2.2 a (h₂.2.1 a ha)⟩

/-- C2 (amended): the two loops of `migrate_sections` iterate Python sets,
whose iteration order is unspecified (hash-randomized per process) rather
than first-seen source order; what the code does guarantee is that under any
two valid iteration orders of those sets the recorded change log contains
the same changes up to order (each change record is determined by the
section records alone).  The change sequence, and the final file, are not
order-independent (see the counterexample). -/
theorem migrate_changes_perm_of_set_orders (srcS tgtS : SectionDict)
    (o₁ o₂ c₁ c₂ : List Line) (st : MigState)
    (ho₁ : IsSetOrder o₁ (sourceOnlyNames srcS tgtS))
    (ho₂ : IsSetOrder o₂ (sourceOnlyNames srcS tgtS))
    (hc₁ : IsSetOrder c₁ (commonNames srcS tgtS))
    (hc₂ : IsSetOrder c₂ (commonNames srcS tgtS)) :
    ((migrateSectionsWithOrders srcS tgtS o₁ c₁ st).changes).Perm
      ((migrateSectionsWithOrders srcS tgtS o₂ c₂ st).changes) := by
  have hp₁ : o₁.Perm o₂ := perm_of_set_orders o₁ o₂ _ ho₁ ho₂
  have hp₂ : c₁.Perm c₂ := perm_of_set_orders c₁ c₂ _ hc₁ hc₂
  unfold migrateSectionsWithOrders
  rw [foldl_stepExisting_changes, foldl_stepNew_changes,
    foldl_stepExisting_changes, foldl_stepNew_changes]
  rw [List.append_assoc, List.append_assoc]
  exact List.Perm.append_left st.changes
    ((hp₁.filterMap _).append (hp₂.filterMap _))

/-- Witness for `migrate_changes_perm_of_set_orders` at a concrete input. -/
theorem migrate_changes_perm_witness :
    IsSetOrder [nmAaa, nmBbb]
      (sourceOnlyNames (identifySections ordSrc) (identifySections ordTgt)) ∧
    IsSetOrder [nmBbb, nmAaa]
      (sourceOnlyNames (identifySections ordSrc) (identifySections ordTgt)) ∧
    IsSetOrder [] (commonNames (identifySections ordSrc) (identifySections ordTgt)) ∧
    ((migrateSectionsWithOrders (identifySections ordSrc) (identifySections ordTgt)
        [nmAaa, nmBbb] [] ⟨ordTgt, []⟩).changes).Perm
      ((migrateSectionsWithOrders (identifySections ordSrc) (identifySections ordTgt)
        [nmBbb, nmAaa] [] ⟨ordTgt, []⟩).changes) :=
  ⟨by decide, by decide, by decide,
   migrate_changes_perm_of_set_orders (identifySections ordSrc)
     (identifySections ordTgt) [nmAaa, nmBbb] [nmBbb, nmAaa] [] []
     ⟨ordTgt, []⟩ (by decide) (by decide) (by decide) (by decide)⟩

/-- Net brace count of an empty block. -/
lemma netBraces_nil : netBraces [] = 0 := rfl

/-- Net brace count of a block, one line at a time. -/
lemma netBraces_cons (l : Line) (ls : List Line) :
    netBraces (l :: ls) = braceDelta l + netBraces ls := by
  simp [netBraces]

/-- The capture loop consumes at most the remaining lines. -/
lemma captureLen_le (ls : List Line) (bc : Int) : captureLen ls bc ≤ ls.length := by
  induction ls generalizing bc with
  | nil => simp [captureLen]
  | cons l ls ih =>
    unfold captureLen
    by_cases h : bc ≤ 0
    · rw [if_pos h]; simp
    · rw [if_neg h]
      simpa using Nat.succ_le_succ (ih (bc + braceDelta l))

/-- The section invariant is monotone in the index bound. -/
lemma SecInv_mono (full : List Line) (b b' : Nat) (s : GradleSection)
    (h : SecInv full b s) (hb : b ≤ b') : SecInv full b' s :=
  ⟨h.1, lt_of_lt_of_le h.2.1 hb, h.2.2.1, h.2.2.2⟩

/-- The dict invariant is monotone in the index bound. -/
lemma DictInv_mono (full : List Line) (b b' : Nat) (d : SectionDict)
    (h : DictInv full b d) (hb : b ≤ b') : DictInv full b' d :=
  ⟨fun p hp => SecInv_mono full b b' p.2 (h.1 p hp) hb, h.2⟩

/-- Membership after a Python dict assignment: either the fresh pair, or an
old pair whose key differs from the assigned one. -/
lemma mem_dictInsert (d : SectionDict) (k : Line) (v : GradleSection)
    (p : Line × GradleSection) (hp : p ∈ dictInsert d k v) :
    p = (k, v) ∨ (p ∈ d ∧ p.1 ≠ k) := by
  unfold dictInsert at hp
  by_cases h : d.any (fun q => q.1 == k)
  · rw [if_pos h] at hp
    obtain ⟨q, hq, hqe⟩ := List.mem_map.1 hp
    by_cases hqk : (q.1 == k) = true
    · left
      rw [if_pos hqk] at hqe
      exact hqe.symm
    · right
      rw [if_neg hqk] at hqe
      subst hqe
      exact ⟨hq, by simpa using hqk⟩
  · rw [if_neg h] at hp
    rcases List.mem_append.1 hp with hp' | hp'
    · right
      refine ⟨hp', fun hk => ?_⟩
      rw [List.any_eq_true] at h
      exact h ⟨p, hp', by simp [hk]⟩
    · left
      simpa using hp'

/-- Dropping one more line from under a known suffix. -/
lemma drop_succ_of_drop_cons (full : List Line) (i : Nat) (l : Line)
    (ls : List Line) (h : full.drop i = l :: ls) : full.drop (i + 1) = ls := by
  have h2 : (full.drop i).drop 1 = ls := by rw [h]; rfl
  rwa [List.drop_drop] at h2

/-- Unfolding of the scanner loop on an empty suffix. -/
lemma identifyGo_nil (fuel : Nat) (i : Nat) (d : SectionDict) :
    identifyGo fuel [] i d = d := by
  cases fuel <;> rfl

/-- Unfolding of the scanner loop on a non-empty suffix with fuel to spare. -/
lemma identifyGo_cons (fuel : Nat) (l : Line) (ls : List Line) (i : Nat)
    (d : SectionDict) :
    identifyGo (fuel + 1) (l :: ls) i d =
      if (pyStrip l).isEmpty || startsWith strLineComment (pyStrip l) ||
          startsWith strBlockComment (pyStrip l) then
        identifyGo fuel ls (i + 1) d
      else
        match sectionMatch (pyStrip l) with
        | some name =>
          identifyGo fuel (ls.drop (captureLen ls 1)) (i + 1 + captureLen ls 1)
            (dictInsert d name
              ⟨name, l :: ls.take (captureLen ls 1), i, i + captureLen ls 1,
               determineSectionType name, []⟩)
        | none => identifyGo fuel ls (i + 1) d := rfl

/-- Unfolding of the well-formedness check on an empty suffix. -/
lemma wellScan_nil (fuel : Nat) : wellScan fuel [] = true := by
  cases fuel <;> rfl

/-- Unfolding of the well-formedness check on a non-empty suffix with fuel to
spare. -/
lemma wellScan_cons (fuel : Nat) (l : Line) (ls : List Line) :
    wellScan (fuel + 1) (l :: ls) =
      if (pyStrip l).isEmpty || startsWith strLineComment (pyStrip l) ||
          startsWith strBlockComment (pyStrip l) then
        wellScan fuel ls
      else
        match sectionMatch (pyStrip l) with
        | some _ =>
          (braceDelta l == 1) &&
          (1 + netBraces (ls.take (captureLen ls 1)) == 0) &&
          wellScan fuel (ls.drop (captureLen ls 1))
        | none => wellScan fuel ls := rfl

/-- Main invariant of the scanner loop: under the capture well-formedness
check, every section recorded so far and every section recorded by the rest
of the scan is within bounds, slices the file exactly, is brace-balanced, and
the recorded ranges are pairwise disjoint. -/
lemma identifyGo_inv (full : List Line) (fuel : Nat) :
    ∀ (rest : List Line) (i : Nat) (d : SectionDict),
      rest.length ≤ fuel →
      full.drop i = rest →
      wellScan fuel rest = true →
      DictInv full i d →
      DictInv full (i + rest.length) (identifyGo fuel rest i d) := by
  induction fuel with
  | zero =>
    intro rest i d hf hdrop hw hinv
    have hr : rest = [] := List.eq_nil_of_length_eq_zero (Nat.le_zero.1 hf)
    subst hr
    simpa [identifyGo_nil] using hinv
  | succ fuel ih =>
    intro rest i d hf hdrop hw hinv
    cases rest with
    | nil => simpa [identifyGo_nil] using hinv
    | cons l ls =>
      rw [identifyGo_cons]
      rw [wellScan_cons] at hw
      by_cases hskip : ((pyStrip l).isEmpty || startsWith strLineComment (pyStrip l) ||
          startsWith strBlockComment (pyStrip l)) = true
      · rw [if_pos hskip]
        rw [if_pos hskip] at hw
        rw [List.length_cons, show i + (ls.length + 1) = (i + 1) + ls.length by omega]
        exact ih ls (i + 1) d (by simpa using hf)
          (drop_succ_of_drop_cons full i l ls hdrop) hw
          (DictInv_mono full i (i + 1) d hinv (Nat.le_succ i))
      · rw [if_neg hskip]
        rw [if_neg hskip] at hw
        cases hm : sectionMatch (pyStrip l) with
        | none =>
          simp only [hm] at hw ⊢
          rw [List.length_cons, show i + (ls.length + 1) = (i + 1) + ls.length by omega]
          exact ih ls (i + 1) d (by simpa using hf)
            (drop_succ_of_drop_cons full i l ls hdrop) hw
            (DictInv_mono full i (i + 1) d hinv (Nat.le_succ i))
        | some name =>
          simp only [hm] at hw ⊢
          rw [Bool.and_eq_true, Bool.and_eq_true, beq_iff_eq, beq_iff_eq] at hw
          obtain ⟨⟨hw1, hw2⟩, hw3⟩ := hw
          have hn : captureLen ls 1 ≤ ls.length := captureLen_le ls 1
          have hdrop1 : full.drop (i + 1) = ls :=
            drop_succ_of_drop_cons full i l ls hdrop
          have hdrop2 : full.drop (i + 1 + captureLen ls 1) = ls.drop (captureLen ls 1) := by
            rw [← hdrop1, List.drop_drop]
          rw [List.length_cons,
            show i + (ls.length + 1) =
              (i + 1 + captureLen ls 1) + (ls.drop (captureLen ls 1)).length by
                simp only [List.length_drop]; omega]
          refine ih (ls.drop (captureLen ls 1)) (i + 1 + captureLen ls 1) _
            (by simp only [List.length_drop]; simp only [List.length_cons] at hf; omega)
            hdrop2 hw3 ⟨?_, ?_⟩
          · intro p hp
            rcases mem_dictInsert d name _ p hp with hpe | ⟨hpd, _⟩
            · rw [hpe]
              refine ⟨Nat.le_add_right i _, ?_, ?_, ?_⟩
              · show i + captureLen ls 1 < i + 1 + captureLen ls 1
                omega
              · show l :: ls.take (captureLen ls 1) =
                  (full.drop i).take (i + captureLen ls 1 + 1 - i)
                rw [hdrop, show i + captureLen ls 1 + 1 - i = captureLen ls 1 + 1 by omega,
                  List.take_succ_cons]
              · show netBraces (l :: ls.take (captureLen ls 1)) = 0
                rw [netBraces_cons, hw1]
                omega
            · exact SecInv_mono full i (i + 1 + captureLen ls 1) p.2 (hinv.1 p hpd)
                (by omega)
          · intro p hp q hq hne
            rcases mem_dictInsert d name _ p hp with hpe | ⟨hpd, hpk⟩ <;>
              rcases mem_dictInsert d name _ q hq with hqe | ⟨hqd, hqk⟩
            · rw [hpe, hqe] at hne
              exact absurd rfl hne
            · rw [hpe]
              right
              exact lt_of_lt_of_le (hinv.1 q hqd).2.1 (Nat.le_refl i)
            · rw [hqe]
              left
              exact lt_of_lt_of_le (hinv.1 p hpd).2.1 (Nat.le_refl i)
            · exact hinv.2 p hpd q hqd hne

/-- C7 (amended): for every input passing the capture well-formedness check
— each captured section's header line has net brace count one, and each
capture scan stops with the running counter exactly at zero before
end-of-input — every captured section's content has net brace count zero and
spans exactly the recorded line range, and the ranges of distinct captured
sections do not overlap.  (The original claim, assuming only global brace
balance, is refuted by the counterexample: the scanner ignores extra braces
on the header line.) -/
theorem scanner_wellformed_sections (lines : List Line)
    (hw : wellFormedScan lines = true) :
    (∀ p ∈ identifySections lines,
        netBraces p.2.content = 0 ∧
        p.2.startLine ≤ p.2.endLine ∧
        p.2.content =
          (lines.drop p.2.startLine).take (p.2.endLine + 1 - p.2.startLine)) ∧
    (∀ p ∈ identifySections lines, ∀ q ∈ identifySections lines,
        p.1 ≠ q.1 →
        p.2.endLine < q.2.startLine ∨ q.2.endLine < p.2.startLine) := by
  have h := identifyGo_inv lines lines.length lines 0 [] (Nat.le_refl _)
    (by simp) hw ⟨fun p hp => absurd hp (List.not_mem_nil p),
      fun p hp => absurd hp (List.not_mem_nil p)⟩
  unfold identifySections
  refine ⟨fun p hp => ?_, fun p hp q hq hne => h.2 p hp q hq hne⟩
  obtain ⟨h1, _, h3, h4⟩ := h.1 p hp
  exact ⟨h4, h1, h3⟩

/-- Witness for `scanner_wellformed_sections` at a concrete input. -/
theorem scanner_wellformed_sections_witness :
    wellFormedScan wfFile = true ∧
    ((∀ p ∈ identifySections wfFile,
        netBraces p.2.content = 0 ∧
        p.2.startLine ≤ p.2.endLine ∧
        p.2.content =
          (wfFile.drop p.2.startLine).take (p.2.endLine + 1 - p.2.startLine)) ∧
    (∀ p ∈ identifySections wfFile, ∀ q ∈ identifySections wfFile,
        p.1 ≠ q.1 →
        p.2.endLine < q.2.startLine ∨ q.2.endLine < p.2.startLine)) :=
  ⟨by decide, scanner_wellformed_sections wfFile (by decide)⟩

/-- C7 counterexample: the file `["\x7b", "alpha \x7b x \x7d", "\x7d"]` is globally
brace-balanced (two opens, two closes) and its single captured block ends
with the scan counter at zero before end-of-input (the capture spans lines 1
to 2), yet the captured content has net brace count `-1`, because the
scanner counts the header line as exactly one open brace no matter what it
contains. -/
theorem c7_counterexample :
    netBraces c7File = 0 ∧
    (identifySections c7File).map
      (fun p => (p.2.startLine, p.2.endLine, netBraces p.2.content)) =
      [(1, 2, -1)] := by
  refine ⟨by decide, by decide⟩

/-- When the running brace counter stays positive on every prefix, the
capture loop consumes every remaining line. -/
lemma captureLen_all (ls : List Line) (bc : Int)
    (h : ∀ k ≤ ls.length, 0 < bc + netBraces (ls.take k)) :
    captureLen ls bc = ls.length := by
  induction ls generalizing bc with
  | nil => rfl
  | cons l ls ih =>
    have h0 : 0 < bc := by simpa [netBraces_nil] using h 0 (Nat.zero_le _)
    unfold captureLen
    rw [if_neg (by omega)]
    rw [List.length_cons]
    refine congrArg (· + 1) (ih (bc + braceDelta l) (fun k hk => ?_))
    have := h (k + 1) (by simpa using Nat.succ_le_succ hk)
    rw [List.take_succ_cons, netBraces_cons] at this
    omega

/-- A line matching the section-header pattern is neither blank nor a
comment line, so the scanner cannot take its skip branch on it. -/
lemma sectionMatch_not_skip (s : Line) (name : Line)
    (h : sectionMatch s = some name) :
    (s.isEmpty || startsWith strLineComment s || startsWith strBlockComment s) =
      false := by
  cases s with
  | nil => simp [sectionMatch] at h
  | cons c cs =>
    have hc : isIdentStart c = true := by
      by_cases hc : isIdentStart c = true
      · exact hc
      · rw [Bool.not_eq_true] at hc
        simp [sectionMatch, hc] at h
    have hslash : ('/' == c) = false := by
      by_cases hcc : c = '/'
      · subst hcc
        exact absurd hc (by decide)
      · simpa using fun he => hcc he.symm
    have h1 : startsWith strLineComment (c :: cs) = false := by
      simp [startsWith, strLineComment, List.isPrefixOf, hslash]
    have h2 : startsWith strBlockComment (c :: cs) = false := by
      simp [startsWith, strBlockComment, List.isPrefixOf, hslash]
    simp [h1, h2]

/-- Fuel equal to the number of unscanned lines always suffices: with any
two fuel bounds at least the suffix length, the scanner loop computes the
same dict.  This is the embedded counterpart of termination of
`identify_sections`: both loops advance the scan index by one per iteration,
so the loop body runs at most once per line. -/
lemma identifyGo_fuel_irrelevant (f₁ : Nat) :
    ∀ (f₂ : Nat) (rest : List Line) (i : Nat) (d : SectionDict),
      rest.length ≤ f₁ → rest.length ≤ f₂ →
      identifyGo f₁ rest i d = identifyGo f₂ rest i d := by
  induction f₁ with
  | zero =>
    intro f₂ rest i d h₁ h₂
    have hr : rest = [] := List.eq_nil_of_length_eq_zero (Nat.le_zero.1 h₁)
    subst hr
    rw [identifyGo_nil, identifyGo_nil]
  | succ f₁ ih =>
    intro f₂ rest i d h₁ h₂
    cases rest with
    | nil => rw [identifyGo_nil, identifyGo_nil]
    | cons l ls =>
      cases f₂ with
      | zero => simp at h₂
      | succ f₂ =>
        rw [identifyGo_cons, identifyGo_cons]
        simp only [List.length_cons] at h₁ h₂
        by_cases hskip : ((pyStrip l).isEmpty ||
            startsWith strLineComment (pyStrip l) ||
            startsWith strBlockComment (pyStrip l)) = true
        · rw [if_pos hskip, if_pos hskip]
          exact ih f₂ ls (i + 1) d (by omega) (by omega)
        · rw [if_neg hskip, if_neg hskip]
          cases hm : sectionMatch (pyStrip l) with
          | none =>
            simp only [hm]
            exact ih f₂ ls (i + 1) d (by omega) (by omega)
          | some name =>
            simp only [hm]
            have hn : captureLen ls 1 ≤ ls.length := captureLen_le ls 1
            exact ih f₂ (ls.drop (captureLen ls 1)) (i + 1 + captureLen ls 1) _
              (by simp only [List.length_drop]; omega)
              (by simp only [List.length_drop]; omega)

/-- C10: the Section Scanner is total — the scan index strictly increases,
so fuel equal to the number of unscanned lines always suffices and
`identify_sections` returns a mapping on every finite input (first
conjunct); and a block whose braces never balance yields a single section
whose content extends from its header through the last input line (second
conjunct). -/
theorem scanner_total_and_unterminated :
    (∀ (fuel : Nat) (lines : List Line) (i : Nat) (d : SectionDict),
        lines.length ≤ fuel →
        identifyGo fuel lines i d = identifyGo lines.length lines i d) ∧
    (∀ (hd : Line) (tl : List Line) (name : Line),
        sectionMatch (pyStrip hd) = some name →
        (∀ k ≤ tl.length, 0 < 1 + netBraces (tl.take k)) →
        identifySections (hd :: tl) =
          [(name, ⟨name, hd :: tl, 0, tl.length,
            determineSectionType name, []⟩)]) := by
  constructor
  · intro fuel lines i d hle
    exact identifyGo_fuel_irrelevant fuel lines.length lines i d hle (Nat.le_refl _)
  · intro hd tl name hm hnb
    unfold identifySections
    rw [List.length_cons, identifyGo_cons,
      if_neg (by rw [sectionMatch_not_skip (pyStrip hd) name hm]; simp)]
    simp only [hm]
    rw [captureLen_all tl 1 hnb, List.drop_length, List.take_length,
      identifyGo_nil]
    simp [dictInsert]

/-- Witness for `scanner_total_and_unterminated` at concrete inputs: spare
fuel changes nothing on a concrete file, and a concrete never-closed block
is captured through end-of-file. -/
theorem scanner_total_and_unterminated_witness :
    (identifyGo 99 wfFile 3 [] = identifyGo wfFile.length wfFile 3 []) ∧
    identifySections ( "alpha \x7b\n".data :: [ "    x\n".data]) =
      [( "alpha".data,
        ⟨ "alpha".data, "alpha \x7b\n".data :: [ "    x\n".data], 0, 1,
         determineSectionType ( "alpha".data), []⟩)] :=
  ⟨scanner_total_and_unterminated.1 99 wfFile 3 [] (by decide),
   scanner_total_and_unterminated.2 ( "alpha \x7b\n".data) [ "    x\n".data]
     ( "alpha".data) (by decide) (by decide)⟩

end GradleMig
